import Mathlib

/-!
Verification of the telegram-bot-skeleton polling core against its
natural-language specification.  The TypeScript sources are shallowly
embedded: JSON values and the filesystem are explicit data, every
fallible operation returns `Except`, and the polling loop is a step
function over an explicit store state.
-/

namespace TgBot

/-- A JSON value, the possible results of `JSON.parse`.  Numbers are
modelled as integers, which covers every value the program reads or
writes (`offset` and `update_id` are integers). -/
inductive Json where
  | null
  | bool (b : Bool)
  | num (n : Int)
  | str (s : String)
  | arr (elems : List Json)
  | obj (fields : List (String × Json))

/-- JavaScript property assignment on an object's field list: the first
binding of the key is overwritten in place, otherwise the property is
appended. -/
def setProp : List (String × Json) → String → Json → List (String × Json)
  | [], k, v => [(k, v)]
  | p :: ps, k, v => if p.1 = k then (k, v) :: ps else p :: setProp ps k v

/-- JavaScript property read `j[k]`: `none` models `undefined`. -/
def Json.getField : Json → String → Option Json
  | .obj fields, k => (fields.find? (fun p => p.1 = k)).map (fun p => p.2)
  | _, _ => none

/-- JavaScript property write `j[k] = v` in strict mode: succeeds on an
object, raises a `TypeError` (here `none`) on a primitive.  (Array
targets never occur in the analysed code paths.) -/
def Json.setField : Json → String → Json → Option Json
  | .obj fields, k, v => some (.obj (setProp fields k v))
  | _, _, _ => none

def Json.isObj : Json → Bool
  | .obj _ => true
  | _ => false

/-- One log line, tagged with the `Logger` level used by the source. -/
inductive LogEvent where
  | info (msg : String)
  | warn (msg : String)
  | error (msg : String)
deriving DecidableEq

def LogEvent.isError : LogEvent → Bool
  | .error _ => true
  | _ => false

/-- The text stored in the backing file, as seen by `JSON.parse`:
either syntactically invalid, or parsing to some JSON value. -/
inductive FileText where
  | invalid
  | valid (j : Json)

/-- The slice of the filesystem the `StateManager` touches: its parent
directory and its single backing file. -/
structure Fs where
  dirExists : Bool
  file : Option FileText

/-- Which primitive filesystem operations fail when attempted. -/
structure FsCfg where
  readFails : Bool
  mkdirFails : Bool
  writeFails : Bool
deriving DecidableEq

/-- Observable filesystem side effects, in order of occurrence. -/
inductive FsEvent where
  | mkdirCall
  | writeCall (content : Json)

namespace StateManager

/-- `this.state` as set by the constructor. -/
def initialState : Json := .obj [("offset", .num 0)]

/-- `StateManager.ensureDirectoryExists`: `mkdir` only when the
directory is missing; an `mkdir` failure propagates to the caller. -/
def ensureDirectoryExists (cfg : FsCfg) (fs : Fs) : Except Unit (Fs × List FsEvent) :=
  if fs.dirExists then .ok (fs, [])
  else if cfg.mkdirFails then .error ()
  else .ok ({ fs with dirExists := true }, [.mkdirCall])

/-- `writeFile(statePath, JSON.stringify(state))`: a successful write
leaves well-formed JSON text in the file. -/
def writeFileJ (cfg : FsCfg) (fs : Fs) (content : Json) : Except Unit (Fs × List FsEvent) :=
  if cfg.writeFails then .error ()
  else .ok ({ fs with file := some (.valid content) }, [.writeCall content])

/-- Result of a `StateManager.save` call. -/
structure SaveOut where
  fs : Fs
  events : List FsEvent
  logs : List LogEvent

/-- `StateManager.save`: ensure the directory, write the state; any
failure is caught, logged and swallowed. -/
def save (cfg : FsCfg) (state : Json) (fs : Fs) : SaveOut :=
  match ensureDirectoryExists cfg fs with
  | .error () => { fs := fs, events := [], logs := [.error "Failed to save state"] }
  | .ok (fs1, ev1) =>
      match writeFileJ cfg fs1 state with
      | .error () => { fs := fs1, events := ev1, logs := [.error "Failed to save state"] }
      | .ok (fs2, ev2) => { fs := fs2, events := ev1 ++ ev2, logs := [] }

/-- Result of a `StateManager.load` call. -/
structure LoadOut where
  state : Json
  fs : Fs
  events : List FsEvent
  logs : List LogEvent

/-- The `try` body of `StateManager.load`.  Cold start (no file):
ensure the directory, save the current state, log.  Otherwise read and
`JSON.parse` the file and assign the parsed value to `this.state`
verbatim — note that no schema validation happens here. -/
def loadTry (cfg : FsCfg) (st : Json) (fs : Fs) : Except Unit LoadOut :=
  match fs.file with
  | none =>
      match ensureDirectoryExists cfg fs with
      | .error () => .error ()
      | .ok (fs1, ev1) =>
          let s := save cfg st fs1
          .ok { state := st, fs := s.fs, events := ev1 ++ s.events,
                logs := s.logs ++ [.info "Created new state file"] }
  | some t =>
      if cfg.readFails then .error ()
      else
        match t with
        | .invalid => .error ()
        | .valid j => .ok { state := j, fs := fs, events := [], logs := [.info "Loaded state"] }

/-- `StateManager.load` with its `catch`: a read, parse or mkdir
failure is logged and resets the in-memory state to `{ offset: 0 }`.
Total by construction — `load` never raises to its caller. -/
def load (cfg : FsCfg) (st : Json) (fs : Fs) : LoadOut :=
  match loadTry cfg st fs with
  | .ok out => out
  | .error () =>
      { state := .obj [("offset", .num 0)], fs := fs, events := [],
        logs := [.error "Failed to load state"] }

/-- `StateManager.getOffset`: reads `this.state.offset`; `none` models
the JavaScript value `undefined`. -/
def getOffset (st : Json) : Option Json := st.getField "offset"

/-- Result of a `StateManager.setOffset` call. -/
structure SetOffsetOut where
  state : Json
  fs : Fs
  events : List FsEvent
  logs : List LogEvent

/-- `StateManager.setOffset`: assign `this.state.offset = offset`, then
`save` (which swallows its own failures).  The only way this can raise
is the strict-mode `TypeError` of a property write on a primitive. -/
def setOffset (cfg : FsCfg) (st : Json) (fs : Fs) (offset : Int) : Except Unit SetOffsetOut :=
  match st.setField "offset" (.num offset) with
  | none => .error ()
  | some st1 =>
      let s := save cfg st1 fs
      .ok { state := st1, fs := s.fs, events := s.events, logs := s.logs }

end StateManager

theorem getField_setProp (fields : List (String × Json)) (k : String) (v : Json) :
    (Json.obj (setProp fields k v)).getField k = some v := by
  induction fields with
  | nil => simp [setProp, Json.getField, List.find?]
  | cons p ps ih =>
      by_cases h : p.1 = k
      · simp [setProp, h, Json.getField, List.find?]
      · simp only [setProp, if_neg h]
        simpa [Json.getField, List.find?, h] using ih

/-- C3 counterexample input: a backing file holding the syntactically
valid JSON object `\x7b"count": 5\x7d`, which does not denote a state of the
form `\x7b"offset": n\x7d`. -/
def c3Fs : Fs := { dirExists := true, file := some (.valid (.obj [("count", .num 5)])) }

/-- C3 is false as stated: on the syntactically valid but schemaless
content `\x7b"count": 5\x7d`, `load()` completes, but the store's offset
afterwards is `undefined` rather than `0`, and no error is logged. -/
theorem C3_load_counterexample :
    StateManager.getOffset (StateManager.load ⟨false, false, false⟩
        StateManager.initialState c3Fs).state ≠ some (.num 0) ∧
    ((StateManager.load ⟨false, false, false⟩
        StateManager.initialState c3Fs).logs.all (fun e => !e.isError)) = true := by
  constructor
  · intro h
    simp [StateManager.load, StateManager.loadTry, c3Fs, StateManager.getOffset,
      Json.getField, List.find?] at h
  · rfl

/-- C3 amended: `load()` never raises (it is total by construction); a
read failure or syntactically invalid JSON is logged as an error and
resets the in-memory state to `\x7b"offset": 0\x7d`; but syntactically valid
JSON is assigned to the state verbatim, with no schema validation, so
content that does not denote `\x7b"offset": n\x7d` leaves the store with
whatever (possibly undefined) offset the parsed value carries. -/
theorem C3_load_amended (cfg : FsCfg) (st : Json) (fs : Fs) :
    ((fs.file = some .invalid ∨ (cfg.readFails = true ∧ fs.file.isSome = true)) →
      (StateManager.load cfg st fs).state = Json.obj [("offset", .num 0)] ∧
      (StateManager.load cfg st fs).logs = [.error "Failed to load state"]) ∧
    (∀ j, fs.file = some (.valid j) → cfg.readFails = false →
      (StateManager.load cfg st fs).state = j) := by
  constructor
  · rintro (h | ⟨hr, hs⟩)
    · cases hrf : cfg.readFails <;>
        simp [StateManager.load, StateManager.loadTry, h, hrf]
    · match hf : fs.file, hs with
      | some t, _ =>
        simp [StateManager.load, StateManager.loadTry, hf, hr]
  · intro j hj hr
    simp [StateManager.load, StateManager.loadTry, hj, hr]

/-- C3 amended claim, witnessed at the concrete input of a backing file
holding invalid JSON: the store resets to offset 0 and logs an error. -/
theorem C3_load_amended_witness :
    (StateManager.load ⟨false, false, false⟩ StateManager.initialState
      ⟨true, some .invalid⟩).state = Json.obj [("offset", .num 0)] ∧
    (StateManager.load ⟨false, false, false⟩ StateManager.initialState
      ⟨true, some .invalid⟩).logs = [.error "Failed to load state"] :=
  (C3_load_amended ⟨false, false, false⟩ StateManager.initialState
    ⟨true, some .invalid⟩).1 (Or.inl rfl)

/-- C6: `setOffset(n)` completes without raising for any object-valued
store state, whether or not the directory exists or the `mkdir` or
file write fails; afterwards the in-memory offset equals `n`
regardless of the write outcome, and the persisted file is updated
exactly when the write path succeeded. -/
theorem C6_setOffset_swallows_persist_failure (cfg : FsCfg) (st : Json) (fs : Fs) (n : Int)
    (h : st.isObj = true) :
    ∃ out, StateManager.setOffset cfg st fs n = .ok out ∧
      StateManager.getOffset out.state = some (.num n) := by
  match st, h with
  | .obj fields, _ =>
      refine ⟨_, rfl, ?_⟩
      exact getField_setProp fields "offset" (.num n)

/-- C6 witness: a concrete `setOffset(7)` call whose underlying file
write fails still returns normally with in-memory offset 7. -/
theorem C6_setOffset_witness :
    ∃ out, StateManager.setOffset ⟨false, false, true⟩ StateManager.initialState
        ⟨true, some (.valid StateManager.initialState)⟩ 7 = .ok out ∧
      StateManager.getOffset out.state = some (.num 7) :=
  C6_setOffset_swallows_persist_failure ⟨false, false, true⟩ StateManager.initialState
    ⟨true, some (.valid StateManager.initialState)⟩ 7 rfl

/-- C7: on a cold start (no backing file) with a working filesystem,
`load()` leaves the in-memory offset at 0, writes a backing file
containing `\x7b"offset": 0\x7d`, and creates the missing parent directory
first (no `mkdir` is issued when the directory already exists). -/
theorem C7_cold_start (cfg : FsCfg) (dirE : Bool)
    (hm : cfg.mkdirFails = false) (hw : cfg.writeFails = false) :
    StateManager.getOffset (StateManager.load cfg StateManager.initialState
      ⟨dirE, none⟩).state = some (.num 0) ∧
    (StateManager.load cfg StateManager.initialState ⟨dirE, none⟩).fs.file =
      some (.valid StateManager.initialState) ∧
    (StateManager.load cfg StateManager.initialState ⟨dirE, none⟩).events =
      (if dirE then [] else [.mkdirCall]) ++ [.writeCall StateManager.initialState] := by
  obtain ⟨r, m, w⟩ := cfg
  cases hm
  cases hw
  cases dirE <;>
    refine ⟨rfl, rfl, rfl⟩

/-- C7 witness: concrete cold start with a missing parent directory. -/
theorem C7_cold_start_witness :
    StateManager.getOffset (StateManager.load ⟨false, false, false⟩
      StateManager.initialState ⟨false, none⟩).state = some (.num 0) ∧
    (StateManager.load ⟨false, false, false⟩ StateManager.initialState
      ⟨false, none⟩).fs.file = some (.valid StateManager.initialState) ∧
    (StateManager.load ⟨false, false, false⟩ StateManager.initialState
      ⟨false, none⟩).events =
      (if false then [] else [.mkdirCall]) ++ [.writeCall StateManager.initialState] :=
  C7_cold_start ⟨false, false, false⟩ false rfl rfl

/-- An update, opaque to the polling core beyond its id. -/
structure Update where
  update_id : Nat
deriving DecidableEq

/-- The cursor as seen through the `StateManager`: the in-memory value
(`getOffset`) and the value last persisted to disk.  This is the store
state the polling loop manipulates; its well-formed-object `Json`
representation is related to it by `setOffset_refines_setOffsetN`
below. -/
structure Store where
  mem : Nat
  disk : Nat
deriving DecidableEq

/-- `stateManager.setOffset(n)` as the loop sees it: memory always
advances, disk only when the underlying write succeeds. -/
def setOffsetN (writeOk : Bool) (n : Nat) (s : Store) : Store :=
  { mem := n, disk := if writeOk then n else s.disk }

/-- The `for (const update of updates)` body of `PollingService.poll`:
invoke the processor, and on success advance the cursor to
`update_id + 1`; a processor failure is caught and logged, skipping
only the `setOffset` call.  Returns the final store and the ids handed
to the processor, in invocation order. -/
def processBatch (writeOk : Bool) (proc : Update → Bool) :
    List Update → Store → Store × List Nat
  | [], s => (s, [])
  | u :: rest, s =>
      let s1 := if proc u then setOffsetN writeOk (u.update_id + 1) s else s
      let r := processBatch writeOk proc rest s1
      (r.1, u.update_id :: r.2)

/-- The outcome of one HTTP exchange in `TelegramClient.makeRequest`:
either the transport layer fails (fetch or body parsing raises), or a
response envelope `\x7b ok, result, description \x7d` arrives. -/
inductive HttpOutcome (α : Type) where
  | transportErr
  | response (ok : Bool) (result : α) (description : Option String)

/-- `TelegramClient.makeRequest`: a transport failure is re-raised; an
`ok: false` envelope raises an application-level error carrying the
remote description; an `ok: true` envelope returns its result. -/
def makeRequest {α : Type} (o : HttpOutcome α) : Except String α :=
  match o with
  | .transportErr => .error "transport failure"
  | .response false _ d => .error ("Telegram API error: " ++ d.getD "Unknown error")
  | .response true r _ => .ok r

/-- `TelegramClient.getUpdates`. -/
def getUpdates (o : HttpOutcome (List Update)) : Except String (List Update) :=
  makeRequest o

/-- The environment of one iteration of the polling loop: how the
fetch turns out, how the processor behaves on each update, and whether
`stop()` is called while the iteration is in flight. -/
structure IterInput where
  http : HttpOutcome (List Update)
  procOk : Update → Bool
  stopDuring : Bool

/-- Observables of one iteration: the offset the fetch was issued
with, the update ids handed to the processor in order, the backoff
slept (milliseconds), and whether a polling error was logged. -/
structure IterResult where
  fetchedAt : Nat
  invoked : List Nat
  sleptMs : Nat
  loggedPollError : Bool
deriving DecidableEq

/-- One iteration of the `while (this.isRunning)` body of
`PollingService.start`: `poll` reads the current offset, fetches, and
processes the batch (returning early on an empty batch); if `poll`
raises — which only the fetch can cause — the error is logged and the
loop sleeps the fixed 5000 ms backoff. -/
def startIter (writeOk : Bool) (inp : IterInput) (s : Store) : Store × IterResult :=
  match getUpdates inp.http with
  | .error _ =>
      (s, { fetchedAt := s.mem, invoked := [], sleptMs := 5000, loggedPollError := true })
  | .ok us =>
      if us.isEmpty then
        (s, { fetchedAt := s.mem, invoked := [], sleptMs := 0, loggedPollError := false })
      else
        let r := processBatch writeOk inp.procOk us s
        (r.1, { fetchedAt := s.mem, invoked := r.2, sleptMs := 0, loggedPollError := false })

/-- The `while (this.isRunning)` loop of `PollingService.start`, run
over a finite schedule of iteration environments.  The running flag is
read only at the top of each iteration; `stop()` during iteration `i`
(`stopDuring`) clears it after that iteration completes in full. -/
def runLoop (writeOk : Bool) : List IterInput → Store → Bool → List IterResult
  | _, _, false => []
  | [], _, true => []
  | inp :: rest, s, true =>
      let r := startIter writeOk inp s
      r.2 :: runLoop writeOk rest r.1 (!inp.stopDuring)

/-- Every update of a batch is handed to the processor, in delivery
order, regardless of which processor calls fail. -/
theorem processBatch_invoked (writeOk : Bool) (proc : Update → Bool)
    (us : List Update) (s : Store) :
    (processBatch writeOk proc us s).2 = us.map (fun u => u.update_id) := by
  induction us generalizing s with
  | nil => rfl
  | cons u rest ih => simp [processBatch, ih]

/-- With persistence succeeding, the final store after a batch is the
last successfully processed update's id plus one (both in memory and
on disk), or the incoming store if every processor call failed. -/
theorem processBatch_store (proc : Update → Bool) (us : List Update) (s : Store) :
    (processBatch true proc us s).1 =
      (match (us.filter proc).getLast? with
       | none => s
       | some u => { mem := u.update_id + 1, disk := u.update_id + 1 }) := by
  induction us generalizing s with
  | nil => rfl
  | cons u rest ih =>
      by_cases h : proc u
      · rw [processBatch]
        simp only [h, if_true, List.filter_cons_of_pos h, setOffsetN, if_true]
        rw [ih]
        rcases hl : (rest.filter proc).getLast? with _ | v
        · rw [List.getLast?_eq_none_iff] at hl
          simp [hl]
        · have hg : ((u :: rest.filter proc).getLast?) = some v := by
            rcases hfp : rest.filter proc with _ | ⟨w, ws⟩
            · rw [hfp] at hl
              simp at hl
            · rw [hfp] at hl
              rw [List.getLast?_cons_cons]
              exact hl
          simp [hg, hl]
      · rw [processBatch]
        simp only [h, if_false, List.filter_cons_of_neg h]
        exact ih s

/-- The `Store` abstraction agrees with the `Json`-level
`StateManager.setOffset` on any object-valued state: the call returns
normally, the in-memory offset becomes `n`, and the backing file is
rewritten exactly when the write succeeds. -/
theorem setOffset_refines_setOffsetN (cfg : FsCfg) (fields : List (String × Json))
    (fs : Fs) (n : Int) (hd : fs.dirExists = true) :
    ∃ st1,
      StateManager.setOffset cfg (.obj fields) fs n = .ok
        { state := st1,
          fs := { fs with file := if cfg.writeFails then fs.file else some (.valid st1) },
          events := if cfg.writeFails then [] else [.writeCall st1],
          logs := if cfg.writeFails then [.error "Failed to save state"] else [] } ∧
      StateManager.getOffset st1 = some (.num n) := by
  refine ⟨.obj (setProp fields "offset" (.num n)), ?_, getField_setProp _ _ _⟩
  obtain ⟨r, m, w⟩ := cfg
  obtain ⟨d, fl⟩ := fs
  cases hd
  cases w <;>
    simp [StateManager.setOffset, Json.setField, StateManager.save,
      StateManager.ensureDirectoryExists, StateManager.writeFileJ]

/-- C1 is false as stated: for the batch `[\x7bupdate_id: 1\x7d]` whose single
processor call fails, the persisted cursor stays at 0 — it is not
advanced to `update_id + 1 = 2`, because `poll` runs `setOffset` after
`onUpdate` inside the same `try`. -/
theorem C1_advance_counterexample :
    (processBatch true (fun u => u.update_id != 1) [⟨1⟩] ⟨0, 0⟩).1.disk = 0 ∧
    (processBatch true (fun u => u.update_id != 1) [⟨1⟩] ⟨0, 0⟩).1.disk ≠ 1 + 1 := by
  decide

/-- C1 amended: every update of a fetched batch is handed to the
processor in order, but the cursor is advanced to `update_id + 1` and
persisted only for the updates whose processor call succeeds — after
the batch it equals the last successful update's id plus one, or is
unchanged if every call failed.  The claim's concrete example still
holds: on `[\x7bupdate_id:1\x7d, \x7bupdate_id:2\x7d]` with update 1 failing,
update 2 is still invoked and the final persisted offset is 3. -/
theorem C1_cursor_advance_amended (writeOk : Bool) (proc : Update → Bool)
    (us : List Update) (s : Store) :
    (processBatch writeOk proc us s).2 = us.map (fun u => u.update_id) ∧
    (processBatch true proc us s).1 =
      (match (us.filter proc).getLast? with
       | none => s
       | some u => { mem := u.update_id + 1, disk := u.update_id + 1 }) ∧
    processBatch true (fun u => u.update_id != 1) [⟨1⟩, ⟨2⟩] ⟨0, 0⟩ =
      ({ mem := 3, disk := 3 }, [1, 2]) :=
  ⟨processBatch_invoked writeOk proc us s, processBatch_store proc us s, by decide⟩

/-- C4: with an always-succeeding processor the processor is invoked
exactly once per update, in delivery order, and after the batch the
cursor (memory and disk) is the last update's id plus one. -/
theorem C4_ordering (proc : Update → Bool) (us : List Update) (s : Store)
    (h : ∀ u ∈ us, proc u = true) :
    (processBatch true proc us s).2 = us.map (fun u => u.update_id) ∧
    (processBatch true proc us s).1 =
      (match us.getLast? with
       | none => s
       | some u => { mem := u.update_id + 1, disk := u.update_id + 1 }) := by
  refine ⟨processBatch_invoked true proc us s, ?_⟩
  rw [processBatch_store, List.filter_eq_self.mpr h]

/-- A sequence of successful fetch+process cycles: each cycle feeds
its whole batch through `poll` with an always-succeeding processor and
a working persistence path. -/
def runCycles (bs : List (List Update)) (s : Store) : Store :=
  bs.foldl (fun st b => (processBatch true (fun _ => true) b st).1) s

/-- All update ids delivered over a sequence of batches, in order. -/
def batchIds (bs : List (List Update)) : List Nat :=
  bs.flatten.map (fun u => u.update_id)

/-- After a sequence of all-successful cycles the store holds the very
last delivered update's id plus one (or is untouched when no update
was delivered at all). -/
theorem runCycles_store (bs : List (List Update)) (s : Store) :
    runCycles bs s =
      (match bs.flatten.getLast? with
       | none => s
       | some u => { mem := u.update_id + 1, disk := u.update_id + 1 }) := by
  induction bs generalizing s with
  | nil => rfl
  | cons b bs ih =>
      show runCycles bs ((processBatch true (fun _ => true) b s).1) = _
      rw [ih, processBatch_store, List.filter_true]
      rcases hj : bs.flatten.getLast? with _ | v
      · rw [List.getLast?_eq_none_iff] at hj
        have hb : (b :: bs).flatten = b := by simp [hj]
        rw [hb]
      · have hcons : (b :: bs).flatten.getLast? = some v := by
          have hb : (b :: bs).flatten = b ++ bs.flatten := rfl
          rw [hb, List.getLast?_append, hj]
          rfl
        rw [hcons]

/-- `batchIds` distributes over appending batch sequences. -/
theorem batchIds_append (l1 l2 : List (List Update)) :
    batchIds (l1 ++ l2) = batchIds l1 ++ batchIds l2 := by
  simp [batchIds, List.flatten_append]

/-- Folding `Nat.max` over a `≤`-sorted list yields its last element
(joined with the accumulator). -/
theorem foldl_max_sorted (l : List Nat) (hs : l.Pairwise (· ≤ ·)) (a : Nat) :
    l.foldl Nat.max a =
      (match l.getLast? with
       | none => a
       | some x => Nat.max a x) := by
  induction l generalizing a with
  | nil => rfl
  | cons x t ih =>
      have hs' : t.Pairwise (· ≤ ·) := hs.of_cons
      have hle : ∀ y ∈ t, x ≤ y := fun y hy => List.rel_of_pairwise_cons hs hy
      show t.foldl Nat.max (Nat.max a x) = _
      rw [ih hs']
      rcases ht : t.getLast? with _ | y
      · rw [List.getLast?_eq_none_iff] at ht
        subst ht
        rfl
      · have hxy : x ≤ y := hle y (List.mem_of_getLast?_eq_some ht)
        have hcons : (x :: t).getLast? = some y := by
          rcases t with _ | ⟨z, zs⟩
          · simp at ht
          · rw [List.getLast?_cons_cons]
            exact ht
        rw [hcons]
        show Nat.max (Nat.max a x) y = Nat.max a y
        simp only [Nat.max_def]
        split_ifs <;> omega

/-- C2: over any run of successful cycles whose batches deliver their
update ids in ascending order, the persisted cursor never decreases
from one cycle to the next, and — whenever at least one update has
been delivered — the cursor after a cycle equals
`max(update_id) + 1` over all updates processed so far. -/
theorem C2_monotonic_cursor (bs : List (List Update)) (n : Nat)
    (hs : (batchIds bs).Pairwise (· ≤ ·)) (hn : n < bs.length) :
    (runCycles (bs.take n) ⟨0, 0⟩).disk ≤ (runCycles (bs.take (n + 1)) ⟨0, 0⟩).disk ∧
    ((bs.take (n + 1)).flatten ≠ [] →
      (runCycles (bs.take (n + 1)) ⟨0, 0⟩).disk =
        (batchIds (bs.take (n + 1))).foldl Nat.max 0 + 1) := by
  have hsplit : batchIds bs = batchIds (bs.take (n + 1)) ++ batchIds (bs.drop (n + 1)) := by
    have h := batchIds_append (bs.take (n + 1)) (bs.drop (n + 1))
    rw [List.take_append_drop] at h
    exact h
  have hsp : (batchIds (bs.take (n + 1))).Pairwise (· ≤ ·) :=
    (List.pairwise_append.mp (hsplit ▸ hs)).1
  have htake : bs.take (n + 1) = bs.take n ++ [bs[n]] := by
    rw [List.take_succ]
    simp [List.getElem?_eq_getElem hn]
  have hflat : (bs.take (n + 1)).flatten = (bs.take n).flatten ++ bs[n] := by
    rw [htake, List.flatten_append]
    simp
  constructor
  · rw [runCycles_store, runCycles_store, hflat]
    rcases hb : bs[n].getLast? with _ | v
    · rw [List.getLast?_eq_none_iff] at hb
      rw [hb, List.append_nil]
    · rw [List.getLast?_append, hb]
      rcases ha : (bs.take n).flatten.getLast? with _ | w
      · simp only [Option.or_some]
        exact Nat.zero_le _
      · simp only [Option.or_some]
        have hw : w ∈ (bs.take n).flatten := List.mem_of_getLast?_eq_some ha
        have hv : v ∈ bs[n] := List.mem_of_getLast?_eq_some hb
        have hids : batchIds (bs.take (n + 1)) =
            (bs.take n).flatten.map (fun u => u.update_id) ++
              bs[n].map (fun u => u.update_id) := by
          rw [batchIds, hflat, List.map_append]
        have hsp2 := (List.pairwise_append.mp (hids ▸ hsp)).2.2
        have hle : w.update_id ≤ v.update_id :=
          hsp2 _ (List.mem_map_of_mem _ hw) _ (List.mem_map_of_mem _ hv)
        exact Nat.succ_le_succ hle
  · intro hne
    rw [runCycles_store]
    rcases hfl : (bs.take (n + 1)).flatten.getLast? with _ | u
    · rw [List.getLast?_eq_none_iff] at hfl
      exact absurd hfl hne
    · have hmap : (batchIds (bs.take (n + 1))).getLast? = some u.update_id := by
        rw [batchIds, List.getLast?_map, hfl]
        rfl
      rw [foldl_max_sorted _ hsp, hmap]
      show u.update_id + 1 = Nat.max 0 u.update_id + 1
      simp only [Nat.max_def]
      split_ifs <;> omega

/-- Concrete batches for the C2 witness. -/
def c2Batches : List (List Update) := [[⟨1⟩, ⟨2⟩], [⟨5⟩]]

/-- C2 witnessed on the cycles `[[1, 2], [5]]`: after cycle 1 the
persisted cursor is 3, after cycle 2 it is 6 = max(1, 2, 5) + 1. -/
theorem C2_monotonic_cursor_witness :
    (runCycles (c2Batches.take 1) ⟨0, 0⟩).disk ≤
      (runCycles (c2Batches.take 2) ⟨0, 0⟩).disk ∧
    ((c2Batches.take 2).flatten ≠ [] →
      (runCycles (c2Batches.take 2) ⟨0, 0⟩).disk =
        (batchIds (c2Batches.take 2)).foldl Nat.max 0 + 1) :=
  C2_monotonic_cursor c2Batches 1 (by decide) (by decide)

/-- C4 witnessed on the claim's batch `[5, 6, 7]`: invocations
`[5, 6, 7]` in order and final persisted offset 8. -/
theorem C4_ordering_witness :
    (processBatch true (fun _ => true) [⟨5⟩, ⟨6⟩, ⟨7⟩] ⟨0, 0⟩).2 = [5, 6, 7] ∧
    (processBatch true (fun _ => true) [⟨5⟩, ⟨6⟩, ⟨7⟩] ⟨0, 0⟩).1 = ⟨8, 8⟩ := by
  have h := C4_ordering (fun _ => true) [⟨5⟩, ⟨6⟩, ⟨7⟩] ⟨0, 0⟩ (fun u _ => rfl)
  exact ⟨h.1, h.2.trans (by decide)⟩

/-- Once the running flag is false no iteration at all takes place. -/
theorem runLoop_not_running (writeOk : Bool) (inputs : List IterInput) (s : Store) :
    runLoop writeOk inputs s false = [] := by
  cases inputs <;> rfl

/-- Every iteration issues its fetch at the store's current in-memory
offset. -/
theorem startIter_fetchedAt (writeOk : Bool) (inp : IterInput) (s : Store) :
    (startIter writeOk inp s).2.fetchedAt = s.mem := by
  rcases hg : getUpdates inp.http with e | us
  · simp [startIter, hg]
  · by_cases h : us.isEmpty <;> simp [startIter, hg, h]

/-- A successfully fetched batch is handed to the processor in full:
the iteration's invocation list covers every update of the batch. -/
theorem startIter_invoked_ok (writeOk : Bool) (inp : IterInput) (s : Store)
    (us : List Update) (d : Option String) (h : inp.http = .response true us d) :
    (startIter writeOk inp s).2.invoked = us.map (fun u => u.update_id) := by
  have hgu : getUpdates inp.http = .ok us := by rw [h]; rfl
  by_cases he : us.isEmpty
  · have hnil : us = [] := by simpa using he
    subst hnil
    simp [startIter, hgu]
  · simp [startIter, hgu, he, processBatch_invoked]

/-- C5: when the fetch fails — whether by a transport error or by an
`ok: false` envelope, both of which `makeRequest` raises as a source
failure — the iteration leaves the cursor untouched, logs the error
and sleeps the fixed 5000 ms backoff; the loop does not terminate, and
the next iteration fetches with the same unchanged offset. -/
theorem C5_source_failure_backoff (writeOk : Bool) (inp : IterInput)
    (rest : List IterInput) (s : Store)
    (herr : inp.http = .transportErr ∨ ∃ us d, inp.http = .response false us d)
    (hstop : inp.stopDuring = false) :
    (startIter writeOk inp s).1 = s ∧
    (startIter writeOk inp s).2 =
      { fetchedAt := s.mem, invoked := [], sleptMs := 5000, loggedPollError := true } ∧
    runLoop writeOk (inp :: rest) s true =
      (startIter writeOk inp s).2 :: runLoop writeOk rest s true ∧
    (∀ inp2 rest2, rest = inp2 :: rest2 →
      ∃ r2 out, runLoop writeOk (inp :: rest) s true =
        (startIter writeOk inp s).2 :: r2 :: out ∧ r2.fetchedAt = s.mem) := by
  have hgu : ∃ e, getUpdates inp.http = .error e := by
    rcases herr with h | ⟨us, d, h⟩ <;> rw [h] <;> exact ⟨_, rfl⟩
  obtain ⟨e, hgu⟩ := hgu
  have h1 : startIter writeOk inp s =
      (s, { fetchedAt := s.mem, invoked := [], sleptMs := 5000, loggedPollError := true }) := by
    simp [startIter, hgu]
  have h2 : runLoop writeOk (inp :: rest) s true =
      (startIter writeOk inp s).2 :: runLoop writeOk rest s true := by
    show (startIter writeOk inp s).2 ::
      runLoop writeOk rest (startIter writeOk inp s).1 (!inp.stopDuring) = _
    rw [h1, hstop]
    rfl
  refine ⟨by rw [h1], by rw [h1], h2, ?_⟩
  rintro inp2 rest2 rfl
  exact ⟨(startIter writeOk inp2 s).2,
    runLoop writeOk rest2 (startIter writeOk inp2 s).1 (!inp2.stopDuring),
    by rw [h2]; rfl,
    startIter_fetchedAt writeOk inp2 s⟩

/-- Iteration environment for the C5 witness: a transport failure. -/
def c5Inp : IterInput := ⟨.transportErr, fun _ => true, false⟩

/-- Continuation for the C5 witness: one further, successful fetch. -/
def c5Rest : List IterInput := [⟨.response true [⟨9⟩] none, fun _ => true, false⟩]

/-- C5 witnessed at a concrete transport failure with offset 4: the
cursor stays ⟨4, 4⟩, a 5000 ms backoff is logged and slept, and the
retry fetches at offset 4 again. -/
theorem C5_source_failure_witness :
    (startIter true c5Inp ⟨4, 4⟩).1 = (⟨4, 4⟩ : Store) ∧
    (startIter true c5Inp ⟨4, 4⟩).2 =
      { fetchedAt := 4, invoked := [], sleptMs := 5000, loggedPollError := true } ∧
    runLoop true (c5Inp :: c5Rest) ⟨4, 4⟩ true =
      (startIter true c5Inp ⟨4, 4⟩).2 :: runLoop true c5Rest ⟨4, 4⟩ true ∧
    (∀ inp2 rest2, c5Rest = inp2 :: rest2 →
      ∃ r2 out, runLoop true (c5Inp :: c5Rest) ⟨4, 4⟩ true =
        (startIter true c5Inp ⟨4, 4⟩).2 :: r2 :: out ∧ r2.fetchedAt = 4) :=
  C5_source_failure_backoff true c5Inp c5Rest ⟨4, 4⟩ (Or.inl rfl) rfl

/-- C8: if `stop()` is requested during iteration `i` (and not
before), the loop still runs iteration `i` to completion — a
successfully fetched batch is processed in full, with every update
handed to the processor — and then exits: exactly `i + 1` iterations
occur, so no further fetch or processor invocation follows. -/
theorem C8_stop_cooperative (writeOk : Bool) (inputs : List IterInput) (s : Store) (i : Nat)
    (hi : i < inputs.length)
    (hbefore : ∀ j inp, j < i → inputs[j]? = some inp → inp.stopDuring = false)
    (hstop : ∀ inp, inputs[i]? = some inp → inp.stopDuring = true) :
    (runLoop writeOk inputs s true).length = i + 1 ∧
    (∀ inp r, inputs[i]? = some inp → (runLoop writeOk inputs s true)[i]? = some r →
      ∀ us d, inp.http = .response true us d →
        r.invoked = us.map (fun u => u.update_id)) := by
  induction i generalizing inputs s with
  | zero =>
      rcases inputs with _ | ⟨inp, rest⟩
      · simp at hi
      · have hsd : inp.stopDuring = true := hstop inp (by simp)
        have hrl : runLoop writeOk (inp :: rest) s true =
            (startIter writeOk inp s).2 ::
              runLoop writeOk rest (startIter writeOk inp s).1 (!inp.stopDuring) := rfl
        rw [hrl, hsd]
        simp only [Bool.not_true, runLoop_not_running]
        refine ⟨rfl, ?_⟩
        intro inp' r hinp hr us d hhttp
        have hinp' : inp' = inp := by simpa using hinp.symm
        have hr' : r = (startIter writeOk inp s).2 := by simpa using hr.symm
        subst hinp'
        subst hr'
        exact startIter_invoked_ok writeOk inp' s us d hhttp
  | succ i ih =>
      rcases inputs with _ | ⟨inp, rest⟩
      · simp at hi
      · have hsd : inp.stopDuring = false := hbefore 0 inp (Nat.succ_pos i) (by simp)
        have hrl : runLoop writeOk (inp :: rest) s true =
            (startIter writeOk inp s).2 ::
              runLoop writeOk rest (startIter writeOk inp s).1 (!inp.stopDuring) := rfl
        rw [hrl, hsd]
        simp only [Bool.not_false]
        have hi' : i < rest.length := Nat.lt_of_succ_lt_succ hi
        have hb' : ∀ j inp0, j < i → rest[j]? = some inp0 → inp0.stopDuring = false :=
          fun j inp0 hj hg => hbefore (j + 1) inp0 (Nat.succ_lt_succ hj) (by simpa using hg)
        have hs' : ∀ inp0, rest[i]? = some inp0 → inp0.stopDuring = true :=
          fun inp0 hg => hstop inp0 (by simpa using hg)
        obtain ⟨hlen, hinv⟩ := ih rest (startIter writeOk inp s).1 hi' hb' hs'
        refine ⟨by simp [hlen], ?_⟩
        intro inp' r hinp hr us d hhttp
        exact hinv inp' r (by simpa using hinp) (by simpa using hr) us d hhttp

/-- Iteration schedule for the C8 witness: a first normal iteration,
then an iteration during which `stop()` is called. -/
def c8Inputs : List IterInput :=
  [⟨.response true [⟨1⟩] none, fun _ => true, false⟩,
   ⟨.response true [⟨2⟩] none, fun _ => true, true⟩]

/-- C8 witnessed on a two-iteration schedule with `stop()` during the
second: exactly two iterations run and the second batch is processed
in full. -/
theorem C8_stop_cooperative_witness :
    (runLoop true c8Inputs ⟨0, 0⟩ true).length = 1 + 1 ∧
    (∀ inp r, c8Inputs[1]? = some inp → (runLoop true c8Inputs ⟨0, 0⟩ true)[1]? = some r →
      ∀ us d, inp.http = .response true us d →
        r.invoked = us.map (fun u => u.update_id)) :=
  C8_stop_cooperative true c8Inputs ⟨0, 0⟩ 1 (by decide)
    (by
      intro j inp hj hg
      have hj0 : j = 0 := by omega
      subst hj0
      simp only [c8Inputs, List.getElem?_cons_zero, Option.some.injEq] at hg
      rw [← hg])
    (by
      intro inp hg
      simp only [c8Inputs, List.getElem?_cons_succ, List.getElem?_cons_zero,
        Option.some.injEq] at hg
      rw [← hg])

/-- A Telegram user, reduced to the fields the handler reads. -/
structure User where
  id : Int
  username : Option String
deriving DecidableEq

structure Chat where
  id : Int
deriving DecidableEq

structure PhotoSize where
  file_id : String
  width : Nat
  height : Nat
  file_size : Option Nat
deriving DecidableEq

structure Document where
  file_id : String
  file_name : String
  file_size : Option Nat
deriving DecidableEq

/-- A message, reduced to the fields `MessageHandler` reads.  `from` is
a reserved word in Lean, hence `from_`. -/
structure Message where
  from_ : Option User
  chat : Chat
  text : Option String
  photo : Option (List PhotoSize)
  document : Option Document
deriving DecidableEq

/-- Externally visible actions of the handler: a reply sent via
`sendMessage`, a file download attempt via `downloadFileById`, or the
dispatch into `CommandHandler.handle`. -/
inductive Effect where
  | downloadAttempt (fileId : String)
  | sentMessage (chatId : Int) (text : String)
  | commandInvoked (text : String)
deriving DecidableEq

/-- JavaScript truthiness of an optional number (`0` is falsy). -/
def numTruthy : Option Int → Bool
  | none => false
  | some k => k != 0

/-- JavaScript truthiness of an optional size (`0` is falsy). -/
def sizeTruthy : Option Nat → Bool
  | none => false
  | some n => n != 0

/-- JavaScript truthiness of an optional string (`""` is falsy). -/
def strTruthy : Option String → Bool
  | none => false
  | some s => s != ""

namespace MessageHandler

/-- The `reduce` step selecting the largest photo: compare by
`file_size` when both are truthy, otherwise by pixel area. -/
def pickLarger (largest current : PhotoSize) : PhotoSize :=
  if sizeTruthy current.file_size && sizeTruthy largest.file_size then
    if current.file_size.getD 0 > largest.file_size.getD 0 then current else largest
  else
    if current.width * current.height > largest.width * largest.height then current
    else largest

/-- `MessageHandler.handlePhotoMessage`: pick the largest size, try the
download, and report a failure back to the chat. -/
def handlePhotoMessage (dlOk : String → Bool) (m : Message) (ps : List PhotoSize) :
    List Effect :=
  match ps with
  | [] => []
  | p :: rest =>
      let largest := rest.foldl pickLarger p
      .downloadAttempt largest.file_id ::
        (if dlOk largest.file_id then []
         else [.sentMessage m.chat.id "❌ Failed to download photo\n"])

/-- `MessageHandler.handleDocumentMessage`: try the download and report
a failure back to the chat (an empty `file_name` falls back to
"unknown" via `||`). -/
def handleDocumentMessage (dlOk : String → Bool) (m : Message) (d : Document) :
    List Effect :=
  let fileName := if d.file_name = "" then "unknown" else d.file_name
  .downloadAttempt d.file_id ::
    (if dlOk d.file_id then []
     else [.sentMessage m.chat.id ("❌ Failed to download: " ++ fileName ++ "\n")])

/-- `MessageHandler.handleTextMessage`: echo non-empty text. -/
def handleTextMessage (m : Message) : List Effect :=
  match m.text with
  | none => []
  | some t => if t = "" then [] else [.sentMessage m.chat.id ("You said: " ++ t)]

/-- `MessageHandler.handle`: log, then drop the message when an
authorized user id is configured (truthy) and the sender's id differs
from it (strict `!==`, true as well when the sender is absent);
otherwise route by document, photo, command, plain text. -/
def handle (allowedUserId : Option Int) (dlOk : String → Bool) (m : Message) : List Effect :=
  if numTruthy allowedUserId &&
      (match m.from_, allowedUserId with
       | some u, some k => u.id != k
       | none, _ => true
       | _, none => true) then
    []
  else
    match m.document with
    | some d => handleDocumentMessage dlOk m d
    | none =>
        match m.photo with
        | some ps => handlePhotoMessage dlOk m ps
        | none =>
            if (match m.text with
                | some t => t.startsWith "/"
                | none => false) then
              [.commandInvoked (m.text.getD "")]
            else handleTextMessage m

end MessageHandler

/-- C9: with `ALLOWED_USER_ID` set to a non-zero integer `k`, a
message whose sender is absent or whose sender's id differs from `k`
produces no effects at all — no reply, no download attempt, no command
dispatch; it is only logged and dropped. -/
theorem C9_authorization_gate (k : Int) (dlOk : String → Bool) (m : Message)
    (hk : k ≠ 0)
    (hfrom : m.from_ = none ∨ ∃ u, m.from_ = some u ∧ u.id ≠ k) :
    MessageHandler.handle (some k) dlOk m = [] := by
  obtain ⟨mf, mc, mt, mp, md⟩ := m
  rcases hfrom with h | ⟨u, h, hne⟩
  · subst h
    simp [MessageHandler.handle, numTruthy, hk]
  · subst h
    simp [MessageHandler.handle, numTruthy, hk, hne]

/-- The unauthorized message used by the C9 witness: a document from
user 7 while only user 42 is allowed. -/
def c9Msg : Message :=
  { from_ := some ⟨7, none⟩, chat := ⟨100⟩, text := none, photo := none,
    document := some ⟨"doc-file-id", "a.pdf", some 10⟩ }

/-- C9 witnessed concretely: the document message from user 7 is
dropped without any effect when only user 42 is allowed. -/
theorem C9_authorization_gate_witness :
    MessageHandler.handle (some 42) (fun _ => true) c9Msg = [] :=
  C9_authorization_gate 42 (fun _ => true) c9Msg (by decide)
    (Or.inr ⟨⟨7, none⟩, rfl, by decide⟩)

namespace TelegramClient

/-- The `getFile` result, reduced to the fields `downloadFileById`
reads. -/
structure TFile where
  file_id : String
  file_size : Option Nat
  file_path : Option String
deriving DecidableEq

/-- The 20 MB pre-download limit of `downloadFileById`. -/
def MAX_FILE_SIZE : Nat := 20 * 1024 * 1024

/-- How far `downloadFileById` gets after a successful `getFile`:
either it raises one of its two pre-download validation errors, or it
proceeds to `downloadFile` with the remote path. -/
inductive DlPhase where
  | preFailure (msg : String)
  | downloadFrom (filePath : String)
deriving DecidableEq

/-- The pre-download phase of `TelegramClient.downloadFileById`: raise
when `file.file_path` is falsy; raise when `file.file_size` is truthy
and exceeds `MAX_FILE_SIZE`; otherwise go download `file.file_path`. -/
def downloadFileById (f : TFile) : DlPhase :=
  if !strTruthy f.file_path then .preFailure "File path not available in response"
  else if sizeTruthy f.file_size && decide (f.file_size.getD 0 > MAX_FILE_SIZE) then
    .preFailure "File size exceeds maximum limit"
  else .downloadFrom (f.file_path.getD "")

end TelegramClient

/-- C10: after a successful `getFile`, `downloadFileById` raises
before attempting any download exactly when the result lacks a usable
`file_path` (absent, or empty — which JavaScript truthiness treats as
absent) or its `file_size` is present and strictly greater than
20·1024·1024 bytes; a file of exactly 20·1024·1024 bytes, or with no
`file_size` at all, passes the size check and is downloaded. -/
theorem C10_predownload_validation (f : TelegramClient.TFile) :
    ((∃ msg, TelegramClient.downloadFileById f = .preFailure msg) ↔
      (strTruthy f.file_path = false ∨
        ∃ s, f.file_size = some s ∧ s > TelegramClient.MAX_FILE_SIZE)) ∧
    (∀ p, p ≠ "" →
      TelegramClient.downloadFileById
        ⟨f.file_id, some TelegramClient.MAX_FILE_SIZE, some p⟩ = .downloadFrom p) ∧
    (∀ p, p ≠ "" →
      TelegramClient.downloadFileById ⟨f.file_id, none, some p⟩ = .downloadFrom p) := by
  refine ⟨⟨?_, ?_⟩, ?_, ?_⟩
  · intro ⟨msg, hmsg⟩
    rw [TelegramClient.downloadFileById] at hmsg
    by_cases hp : strTruthy f.file_path
    · rw [hp] at hmsg
      right
      rcases hsz : f.file_size with _ | s
      · rw [hsz] at hmsg
        simp [sizeTruthy] at hmsg
      · by_cases hbig : s > TelegramClient.MAX_FILE_SIZE
        · exact ⟨s, rfl, hbig⟩

        · rw [hsz] at hmsg
          simp [sizeTruthy, hbig] at hmsg
    · left
      simpa using hp
  · intro h
    rcases h with h | ⟨s, hs, hbig⟩
    · exact ⟨"File path not available in response",
        by rw [TelegramClient.downloadFileById, h]; rfl⟩
    · by_cases hp : strTruthy f.file_path
      · refine ⟨"File size exceeds maximum limit", ?_⟩
        rw [TelegramClient.downloadFileById, hp]
        have hnz : s ≠ 0 := by
          intro h0
          rw [h0] at hbig
          exact absurd hbig (by simp [TelegramClient.MAX_FILE_SIZE])
        simp [sizeTruthy, hs, hnz, hbig]
      · exact ⟨"File path not available in response",
          by rw [TelegramClient.downloadFileById]; simp [hp]⟩
  · intro p hp
    rw [TelegramClient.downloadFileById]
    simp [strTruthy, sizeTruthy, hp, TelegramClient.MAX_FILE_SIZE]
  · intro p hp
    rw [TelegramClient.downloadFileById]
    simp [strTruthy, sizeTruthy, hp]

/-- C10 witnessed at the boundary: a file of exactly 20·1024·1024
bytes at path "photos/x.jpg" passes validation and is downloaded. -/
theorem C10_predownload_validation_witness :
    TelegramClient.downloadFileById
      ⟨"id", some TelegramClient.MAX_FILE_SIZE, some "photos/x.jpg"⟩ =
      .downloadFrom "photos/x.jpg" :=
  (C10_predownload_validation ⟨"id", none, none⟩).2.1 "photos/x.jpg" (by decide)

end TgBot
